import Mathlib

/-!
Verification of the FadeChat room-lifecycle server.

The definitions below are a shallow embedding of the server logic found in
`src/server.ts` and its compiled variant embedded in
`src/services/cryptoService.ts` (the compiled variant additionally keeps a
`lastActive` timestamp per room and runs a periodic inactivity sweep; it is
the authority for the claims that cite it).  JavaScript `Map`s become
association lists with JS `Map` semantics (`set` replaces in place, `delete`
removes, `get` returns an option).  The socket.io room membership that the
server relies on for broadcasting (`socket.join`, `socket.leave`,
`io.to(room).emit`, `socket.to(room).emit`) is modelled by an explicit
relation `sio` between room ids and socket ids; every emitted event is
recorded as an output carrying the recipient list resolved at emit time,
exactly as socket.io resolves a broadcast against the current room
membership.  Nondeterministic inputs of the source (`crypto.randomUUID()`,
`generateRoomCode()`, `Date.now()`) are passed to the handlers as explicit
arguments, since the source samples each of them exactly once per call.
JS `string.toUpperCase()` is modelled by charwise uppercasing.
-/

namespace FadeChat

/-- Mirror of the `User` record kept in the `users` map of the server. -/
structure User where
  id : String
  username : String
deriving DecidableEq

/-- Mirror of the `Room` record of the compiled server variant, including
the `lastActive` timestamp used by the inactivity sweep. -/
structure Room where
  id : String
  code : String
  creatorId : String
  participantCount : Nat
  lastActive : Nat
deriving DecidableEq

/-- A `send_message` payload.  The server only ever reads `roomId`; the
remaining fields (the client-declared sender identity and the opaque
encrypted content) are relayed untouched. -/
structure Payload where
  roomId : String
  senderId : String
  content : String
  iv : String
deriving DecidableEq

/-- Events the server emits towards clients: the four room notifications
plus the acknowledgement callbacks of `login`, `create_room`, `join_room`. -/
inductive SEvent where
  | userJoined (username roomId : String)
  | userLeft (userId roomId : String)
  | roomDestroyed (roomId reason : String)
  | newMessage (p : Payload)
  | ackUser (u : User)
  | ackRoom (r : Room)
  | ackError (msg : String)
deriving DecidableEq

/-- An emitted event together with the recipient socket ids resolved at
emit time (socket.io resolves `io.to` / `socket.to` against the current
room membership when `emit` runs). -/
abbrev Output := List String × SEvent

/-- The shared in-memory state of the server: the three JS `Map`s
(`rooms`, `roomCodes`, `users`) plus the socket.io room membership. -/
structure ServerState where
  rooms : List (String × Room)
  roomCodes : List (String × String)
  users : List (String × User)
  sio : List (String × String)
deriving DecidableEq

/-- JS `Map.get`. -/
def mapGet {α : Type} (m : List (String × α)) (k : String) : Option α :=
  match m with
  | [] => none
  | (k', v) :: rest => if k' = k then some v else mapGet rest k

/-- JS `Map.set`: replaces the entry in place if the key is present,
otherwise appends. -/
def mapSet {α : Type} (m : List (String × α)) (k : String) (v : α) :
    List (String × α) :=
  match m with
  | [] => [(k, v)]
  | (k', v') :: rest =>
      if k' = k then (k, v) :: rest else (k', v') :: mapSet rest k v

/-- JS `Map.delete`. -/
def mapDelete {α : Type} (m : List (String × α)) (k : String) :
    List (String × α) :=
  match m with
  | [] => []
  | (k', v) :: rest =>
      if k' = k then mapDelete rest k else (k', v) :: mapDelete rest k

/-- `socket.join(roomId)`: idempotent insertion into the membership. -/
def sioJoin (l : List (String × String)) (rid sid : String) :
    List (String × String) :=
  if (rid, sid) ∈ l then l else (rid, sid) :: l

/-- `socket.leave(roomId)`. -/
def sioLeave (l : List (String × String)) (rid sid : String) :
    List (String × String) :=
  match l with
  | [] => []
  | p :: rest =>
      if p = (rid, sid) then sioLeave rest rid sid
      else p :: sioLeave rest rid sid

/-- `io.in(roomId).disconnectSockets(false)` as seen by the membership
relation: every socket leaves the room. -/
def sioClear (l : List (String × String)) (rid : String) :
    List (String × String) :=
  match l with
  | [] => []
  | p :: rest =>
      if p.1 = rid then sioClear rest rid else p :: sioClear rest rid

/-- The socket ids currently in room `rid`; the recipient set of
`io.to(rid).emit`. -/
def sioMembers (l : List (String × String)) (rid : String) : List String :=
  match l with
  | [] => []
  | p :: rest =>
      if p.1 = rid then p.2 :: sioMembers rest rid else sioMembers rest rid

/-- Charwise model of JS `toUpperCase`, used by `join_room` on the
entered code. -/
def jsUpper (s : String) : String := String.mk (s.data.map Char.toUpper)

/-- `CLEANUP_INTERVAL` of the compiled server variant (milliseconds). -/
def CLEANUP_INTERVAL : Nat := 60 * 1000

/-- `INACTIVITY_TIMEOUT` of the compiled server variant (milliseconds). -/
def INACTIVITY_TIMEOUT : Nat := 60 * 60 * 1000

/-- `destroyRoom(roomId, reason)`: if the room is still present, emit
`room_destroyed` to its current members, clear the socket.io room, and
remove the code-index entry and the room record; otherwise do nothing. -/
def destroyRoom (s : ServerState) (roomId reason : String) :
    ServerState × List Output :=
  match mapGet s.rooms roomId with
  | some room =>
      ({ s with
          rooms := mapDelete s.rooms roomId,
          roomCodes := mapDelete s.roomCodes room.code,
          sio := sioClear s.sio roomId },
       [(sioMembers s.sio roomId, SEvent.roomDestroyed roomId reason)])
  | none => (s, [])

/-- The `login` handler: unconditionally stores a fresh user record for
the socket and acknowledges success. -/
def handleLogin (sid username : String) (s : ServerState) :
    ServerState × List Output :=
  ({ s with users := mapSet s.users sid ⟨sid, username⟩ },
   [([sid], SEvent.ackUser ⟨sid, username⟩)])

/-- The `create_room` handler.  `roomId` stands for the sampled
`crypto.randomUUID()`, `code` for the single `generateRoomCode()` call and
`now` for `Date.now()`. -/
def handleCreateRoom (sid roomId code : String) (now : Nat)
    (s : ServerState) : ServerState × List Output :=
  match mapGet s.users sid with
  | none => (s, [([sid], SEvent.ackError "Not authenticated")])
  | some _ =>
      let newRoom : Room := ⟨roomId, code, sid, 1, now⟩
      ({ s with
          rooms := mapSet s.rooms roomId newRoom,
          roomCodes := mapSet s.roomCodes code roomId,
          sio := sioJoin s.sio roomId sid },
       [([sid], SEvent.ackRoom newRoom)])

/-- The `join_room` handler: resolves the (uppercased) code through the
code index, joins the socket.io room, increments the participant counter,
bumps `lastActive`, notifies the others and acknowledges the joiner. -/
def handleJoinRoom (sid code : String) (now : Nat) (s : ServerState) :
    ServerState × List Output :=
  match mapGet s.users sid with
  | none => (s, [([sid], SEvent.ackError "Not authenticated")])
  | some user =>
      let roomId := (mapGet s.roomCodes (jsUpper code)).getD ""
      match mapGet s.rooms roomId with
      | none => (s, [([sid], SEvent.ackError "Room not found")])
      | some room =>
          let room' : Room :=
            { room with
                participantCount := room.participantCount + 1,
                lastActive := now }
          let sio' := sioJoin s.sio room.id sid
          ({ s with rooms := mapSet s.rooms roomId room', sio := sio' },
           [((sioMembers sio' room.id).filter (fun m => m ≠ sid),
             SEvent.userJoined user.username room.id),
            ([sid], SEvent.ackRoom room')])

/-- The `send_message` handler: if the payload names an active room, bump
`lastActive` and relay the payload unchanged to the whole room; otherwise
do nothing at all. -/
def handleSendMessage (sid : String) (p : Payload) (now : Nat)
    (s : ServerState) : ServerState × List Output :=
  match mapGet s.rooms p.roomId with
  | none => (s, [])
  | some room =>
      ({ s with
          rooms := mapSet s.rooms p.roomId { room with lastActive := now } },
       [(sioMembers s.sio room.id, SEvent.newMessage p)])

/-- The `leave_room` handler (`handleUserLeavingRoom` in the source):
for the creator this destroys the room; for anybody else it bumps
`lastActive`, leaves the socket.io room and notifies the remaining
members. -/
def handleLeaveRoom (sid roomId : String) (now : Nat) (s : ServerState) :
    ServerState × List Output :=
  match mapGet s.rooms roomId with
  | none => (s, [])
  | some room =>
      if room.creatorId = sid then
        destroyRoom s roomId "Creator left the room"
      else
        let s' : ServerState :=
          { s with
              rooms := mapSet s.rooms roomId { room with lastActive := now },
              sio := sioLeave s.sio roomId sid }
        (s', [((sioMembers s'.sio roomId).filter (fun m => m ≠ sid),
               SEvent.userLeft sid roomId)])

/-- One iteration of the `rooms.forEach` loop in the `disconnect`
handler: creator rooms are destroyed, every other room gets its
`lastActive` bumped and a `user_left` broadcast. -/
def discStep (sid : String) (now : Nat)
    (acc : ServerState × List Output) (entry : String × Room) :
    ServerState × List Output :=
  if entry.2.creatorId = sid then
    let r := destroyRoom acc.1 entry.1 "Creator disconnected"
    (r.1, acc.2 ++ r.2)
  else
    let st :=
      match mapGet acc.1.rooms entry.1 with
      | some room =>
          { acc.1 with
              rooms :=
                mapSet acc.1.rooms entry.1 { room with lastActive := now } }
      | none => acc.1
    (st, acc.2 ++
      [(sioMembers acc.1.sio entry.1, SEvent.userLeft sid entry.1)])

/-- The `disconnect` handler: if the socket is registered, walk all
rooms (destroying the ones it created, notifying the others) and finally
remove the user record. -/
def handleDisconnect (sid : String) (now : Nat) (s : ServerState) :
    ServerState × List Output :=
  match mapGet s.users sid with
  | none => (s, [])
  | some _ =>
      let r := s.rooms.foldl (discStep sid now) (s, [])
      ({ r.1 with users := mapDelete r.1.users sid }, r.2)

/-- One iteration of the cleanup sweep loop: destroy the room when its
idle time strictly exceeds `INACTIVITY_TIMEOUT`. -/
def sweepStep (now : Nat) (acc : ServerState × List Output)
    (entry : String × Room) : ServerState × List Output :=
  if now - entry.2.lastActive > INACTIVITY_TIMEOUT then
    let r := destroyRoom acc.1 entry.1 "Room expired due to inactivity"
    (r.1, acc.2 ++ r.2)
  else acc

/-- One tick of the periodic `setInterval` cleanup task of the compiled
server variant. -/
def handleSweep (now : Nat) (s : ServerState) : ServerState × List Output :=
  s.rooms.foldl (sweepStep now) (s, [])

/-- All inbound events the server reacts to. -/
inductive Event where
  | login (sid username : String)
  | createRoom (sid roomId code : String) (now : Nat)
  | joinRoom (sid code : String) (now : Nat)
  | sendMessage (sid : String) (p : Payload) (now : Nat)
  | leaveRoom (sid roomId : String) (now : Nat)
  | disconnect (sid : String) (now : Nat)
  | sweep (now : Nat)

/-- The one-event transition function of the server. -/
def step : Event → ServerState → ServerState × List Output
  | .login sid u, s => handleLogin sid u s
  | .createRoom sid rid c now, s => handleCreateRoom sid rid c now s
  | .joinRoom sid c now, s => handleJoinRoom sid c now s
  | .sendMessage sid p now, s => handleSendMessage sid p now s
  | .leaveRoom sid rid now, s => handleLeaveRoom sid rid now s
  | .disconnect sid now, s => handleDisconnect sid now s
  | .sweep now, s => handleSweep now s

/-- The sampled `crypto.randomUUID()` of a create event is fresh: UUID
collisions are not considered. -/
def freshIds : Event → ServerState → Prop
  | .createRoom _ rid _ _, s => mapGet s.rooms rid = none
  | _, _ => True

/-- The empty initial state of a freshly started server. -/
def initState : ServerState := ⟨[], [], [], []⟩

/-- A concrete state: one room `ra` (code `AAAAAA`, creator `a`) whose
only member is `a`; sessions `a` and `b` are registered. -/
def stateA : ServerState :=
  ⟨[("ra", ⟨"ra", "AAAAAA", "a", 1, 0⟩)],
   [("AAAAAA", "ra")],
   [("a", ⟨"a", "alice"⟩), ("b", ⟨"b", "bob"⟩)],
   [("ra", "a")]⟩

/-- A concrete state: room `ra` created by `a` with members `a` and `b`,
and room `rb` created by `b` with member `b`; `a` never joined `rb`. -/
def stateB : ServerState :=
  ⟨[("ra", ⟨"ra", "AAAAAA", "a", 1, 0⟩), ("rb", ⟨"rb", "BBBBBB", "b", 1, 0⟩)],
   [("AAAAAA", "ra"), ("BBBBBB", "rb")],
   [("a", ⟨"a", "alice"⟩), ("b", ⟨"b", "bob"⟩)],
   [("ra", "a"), ("ra", "b"), ("rb", "b")]⟩

/-- The state reached from a fresh server after two `create_room` calls
whose single code-generator samples happen to collide on `AAAAAA`. -/
def collideState : ServerState :=
  (handleCreateRoom "b" "rb" "AAAAAA" 1
    (handleCreateRoom "a" "ra" "AAAAAA" 0
      (handleLogin "b" "bob" (handleLogin "a" "alice" initState).1).1).1).1

/-- The state reached after `a` creates a room and `b` joins it twice
with the same code (a re-join by an already-member session). -/
def rejoinState : ServerState :=
  (handleJoinRoom "b" "AAAAAA" 2
    (handleJoinRoom "b" "AAAAAA" 1
      (handleCreateRoom "a" "ra" "AAAAAA" 0
        (handleLogin "b" "bob" (handleLogin "a" "alice" initState).1).1).1).1).1

/-- The result of a second `login` on the same connection without an
intervening disconnect. -/
def loginTwiceRes : ServerState × List Output :=
  handleLogin "a" "bob" (handleLogin "a" "alice" initState).1

/-! ### Basic lemmas about the map and membership operations -/

lemma mapGet_mapSet {α : Type} (m : List (String × α)) (k k' : String)
    (v : α) :
    mapGet (mapSet m k v) k' = if k = k' then some v else mapGet m k' := by
  induction m with
  | nil =>
      by_cases h : k = k' <;> simp [mapSet, mapGet, h]
  | cons hd tl ih =>
      obtain ⟨a, b⟩ := hd
      by_cases h : a = k
      · subst h
        by_cases h2 : a = k' <;> simp [mapSet, mapGet, h2]
      · by_cases h2 : a = k'
        · subst h2
          have hk : a ≠ k := h
          have hk' : k ≠ a := fun e => hk e.symm
          simp [mapSet, mapGet, hk, hk']
        · simp [mapSet, mapGet, h, h2, ih]

lemma mapGet_mapDelete {α : Type} (m : List (String × α)) (k k' : String) :
    mapGet (mapDelete m k) k' = if k = k' then none else mapGet m k' := by
  induction m with
  | nil => by_cases h : k = k' <;> simp [mapDelete, mapGet, h]
  | cons hd tl ih =>
      obtain ⟨a, b⟩ := hd
      by_cases h : a = k
      · subst h
        by_cases h2 : a = k'
        · subst h2; simp [mapDelete, mapGet, ih]
        · simp [mapDelete, mapGet, h2, ih]
      · by_cases h2 : a = k'
        · subst h2
          have hk' : k ≠ a := fun e => h e.symm
          simp [mapDelete, mapGet, h, hk']
        · simp [mapDelete, mapGet, h, h2, ih]

lemma mapGet_mem {α : Type} (m : List (String × α)) (k : String) (v : α)
    (h : mapGet m k = some v) : (k, v) ∈ m := by
  induction m with
  | nil => simp [mapGet] at h
  | cons hd tl ih =>
      obtain ⟨a, b⟩ := hd
      by_cases h2 : a = k
      · subst h2
        simp [mapGet] at h
        simp [h]
      · simp [mapGet, h2] at h
        exact List.mem_cons_of_mem _ (ih h)

lemma sioMembers_sioClear_ne (l : List (String × String))
    (rid rid' : String) (h : rid ≠ rid') :
    sioMembers (sioClear l rid) rid' = sioMembers l rid' := by
  induction l with
  | nil => simp [sioClear, sioMembers]
  | cons p rest ih =>
      by_cases h1 : p.1 = rid
      · have h2 : p.1 ≠ rid' := h1 ▸ h
        simp [sioClear, sioMembers, h1, h2, ih, h, Ne.symm h]
      · by_cases h2 : p.1 = rid' <;>
          simp [sioClear, sioMembers, h1, h2, ih, h, Ne.symm h]

/-! ### Lemmas about `destroyRoom` -/

lemma destroyRoom_eq_some (s : ServerState) (rid reason : String) (r : Room)
    (h : mapGet s.rooms rid = some r) :
    destroyRoom s rid reason =
      ({ s with
          rooms := mapDelete s.rooms rid,
          roomCodes := mapDelete s.roomCodes r.code,
          sio := sioClear s.sio rid },
       [(sioMembers s.sio rid, SEvent.roomDestroyed rid reason)]) := by
  unfold destroyRoom
  rw [h]

lemma destroyRoom_eq_none (s : ServerState) (rid reason : String)
    (h : mapGet s.rooms rid = none) :
    destroyRoom s rid reason = (s, []) := by
  unfold destroyRoom
  rw [h]

lemma destroyRoom_users (s : ServerState) (rid reason : String) :
    (destroyRoom s rid reason).1.users = s.users := by
  unfold destroyRoom
  cases h : mapGet s.rooms rid <;> simp

lemma destroyRoom_rooms_none (s : ServerState) (rid reason x : String)
    (h : mapGet s.rooms x = none) :
    mapGet (destroyRoom s rid reason).1.rooms x = none := by
  unfold destroyRoom
  cases h2 : mapGet s.rooms rid with
  | none => simpa using h
  | some room =>
      simp [mapGet_mapDelete]
      intro _
      exact h

lemma destroyRoom_codes_none (s : ServerState) (rid reason y : String)
    (h : mapGet s.roomCodes y = none) :
    mapGet (destroyRoom s rid reason).1.roomCodes y = none := by
  unfold destroyRoom
  cases h2 : mapGet s.rooms rid with
  | none => simpa using h
  | some room =>
      simp [mapGet_mapDelete]
      intro _
      exact h

lemma destroyRoom_rooms_other (s : ServerState) (rid reason x : String)
    (h : rid ≠ x) :
    mapGet (destroyRoom s rid reason).1.rooms x = mapGet s.rooms x := by
  unfold destroyRoom
  cases h2 : mapGet s.rooms rid with
  | none => simp
  | some room => simp [mapGet_mapDelete, h]

lemma destroyRoom_sio_other (s : ServerState) (rid reason x : String)
    (h : rid ≠ x) :
    sioMembers (destroyRoom s rid reason).1.sio x = sioMembers s.sio x := by
  unfold destroyRoom
  cases h2 : mapGet s.rooms rid with
  | none => simp
  | some room => simp [sioMembers_sioClear_ne _ _ _ h]

lemma destroyRoom_out_shape (s : ServerState) (rid reason : String)
    (o : Output) (h : o ∈ (destroyRoom s rid reason).2) :
    o.2 = SEvent.roomDestroyed rid reason := by
  unfold destroyRoom at h
  cases h2 : mapGet s.rooms rid with
  | none => rw [h2] at h; simp at h
  | some room =>
      rw [h2] at h
      simp at h
      rw [h]

lemma destroyRoom_back (s : ServerState) (rid reason x : String) (r' : Room)
    (h : mapGet (destroyRoom s rid reason).1.rooms x = some r') :
    mapGet s.rooms x = some r' := by
  cases h2 : mapGet s.rooms rid with
  | none => rwa [destroyRoom_eq_none _ _ _ h2] at h
  | some room =>
      rw [destroyRoom_eq_some _ _ _ _ h2] at h
      simp [mapGet_mapDelete] at h
      exact h.2

/-! ### Lemmas about the disconnect loop -/

lemma discStep_users (sid : String) (now : Nat)
    (acc : ServerState × List Output) (e : String × Room) :
    (discStep sid now acc e).1.users = acc.1.users := by
  unfold discStep
  by_cases h : e.2.creatorId = sid
  · simp [h, destroyRoom_users]
  · cases h2 : mapGet acc.1.rooms e.1 <;> simp [h, h2]

lemma discStep_out_mono (sid : String) (now : Nat)
    (acc : ServerState × List Output) (e : String × Room) (o : Output)
    (h : o ∈ acc.2) : o ∈ (discStep sid now acc e).2 := by
  unfold discStep
  by_cases h1 : e.2.creatorId = sid
  · simp [h1]; exact Or.inl h
  · cases h2 : mapGet acc.1.rooms e.1 <;> simp [h1, h2] <;> exact Or.inl h

lemma discStep_rooms_none (sid : String) (now : Nat)
    (acc : ServerState × List Output) (e : String × Room) (x : String)
    (h : mapGet acc.1.rooms x = none) :
    mapGet (discStep sid now acc e).1.rooms x = none := by
  unfold discStep
  by_cases h1 : e.2.creatorId = sid
  · simp only [h1, if_true]
    exact destroyRoom_rooms_none _ _ _ _ h
  · cases h2 : mapGet acc.1.rooms e.1 with
    | none => simpa [h1, h2] using h
    | some room =>
        simp only [h1, if_false, h2, mapGet_mapSet]
        by_cases h3 : e.1 = x
        · rw [if_pos h3]
          rw [h3] at h2
          rw [h2] at h
          exact Option.noConfusion h
        · rw [if_neg h3]
          exact h

lemma discStep_codes_none (sid : String) (now : Nat)
    (acc : ServerState × List Output) (e : String × Room) (y : String)
    (h : mapGet acc.1.roomCodes y = none) :
    mapGet (discStep sid now acc e).1.roomCodes y = none := by
  unfold discStep
  by_cases h1 : e.2.creatorId = sid
  · simp only [h1, if_true]
    exact destroyRoom_codes_none _ _ _ _ h
  · cases h2 : mapGet acc.1.rooms e.1 <;> simpa [h1, h2] using h

lemma discStep_rooms_other (sid : String) (now : Nat)
    (acc : ServerState × List Output) (e : String × Room) (x : String)
    (h : e.1 ≠ x) :
    mapGet (discStep sid now acc e).1.rooms x = mapGet acc.1.rooms x := by
  unfold discStep
  by_cases h1 : e.2.creatorId = sid
  · simp only [h1, if_true]
    exact destroyRoom_rooms_other _ _ _ _ h
  · cases h2 : mapGet acc.1.rooms e.1 with
    | none => simp [h1, h2]
    | some room => simp [h1, h2, mapGet_mapSet, h]

lemma discStep_sio_other (sid : String) (now : Nat)
    (acc : ServerState × List Output) (e : String × Room) (x : String)
    (h : e.1 ≠ x) :
    sioMembers (discStep sid now acc e).1.sio x =
      sioMembers acc.1.sio x := by
  unfold discStep
  by_cases h1 : e.2.creatorId = sid
  · simp only [h1, if_true]
    exact destroyRoom_sio_other _ _ _ _ h
  · cases h2 : mapGet acc.1.rooms e.1 <;> simp [h1, h2]

lemma discStep_back (sid : String) (now : Nat)
    (acc : ServerState × List Output) (e : String × Room) (x : String)
    (r' : Room) (h : mapGet (discStep sid now acc e).1.rooms x = some r') :
    ∃ r0, mapGet acc.1.rooms x = some r0 ∧
      r'.creatorId = r0.creatorId := by
  unfold discStep at h
  by_cases h1 : e.2.creatorId = sid
  · simp only [h1, if_true] at h
    exact ⟨r', destroyRoom_back _ _ _ _ _ h, rfl⟩
  · cases h2 : mapGet acc.1.rooms e.1 with
    | none => simp [h1, h2] at h; exact ⟨r', h, rfl⟩
    | some room =>
        simp only [h1, if_false, h2] at h
        simp only [mapGet_mapSet] at h
        by_cases h3 : e.1 = x
        · simp [h3] at h
          refine ⟨room, ?_, ?_⟩
          · rw [← h3]; exact h2
          · rw [← h]
        · simp [h3] at h
          exact ⟨r', h, rfl⟩

lemma foldD_users (sid : String) (now : Nat) (l : List (String × Room)) :
    ∀ acc : ServerState × List Output,
    (l.foldl (discStep sid now) acc).1.users = acc.1.users := by
  induction l with
  | nil => intro acc; rfl
  | cons e tl ih =>
      intro acc
      rw [List.foldl_cons, ih, discStep_users]

lemma foldD_out_mono (sid : String) (now : Nat) (l : List (String × Room)) :
    ∀ (acc : ServerState × List Output) (o : Output), o ∈ acc.2 →
    o ∈ (l.foldl (discStep sid now) acc).2 := by
  induction l with
  | nil => intro acc o h; exact h
  | cons e tl ih =>
      intro acc o h
      rw [List.foldl_cons]
      exact ih _ _ (discStep_out_mono _ _ _ _ _ h)

lemma foldD_rooms_none (sid : String) (now : Nat)
    (l : List (String × Room)) :
    ∀ (acc : ServerState × List Output) (x : String),
    mapGet acc.1.rooms x = none →
    mapGet (l.foldl (discStep sid now) acc).1.rooms x = none := by
  induction l with
  | nil => intro acc x h; exact h
  | cons e tl ih =>
      intro acc x h
      rw [List.foldl_cons]
      exact ih _ _ (discStep_rooms_none _ _ _ _ _ h)

lemma foldD_codes_none (sid : String) (now : Nat)
    (l : List (String × Room)) :
    ∀ (acc : ServerState × List Output) (y : String),
    mapGet acc.1.roomCodes y = none →
    mapGet (l.foldl (discStep sid now) acc).1.roomCodes y = none := by
  induction l with
  | nil => intro acc y h; exact h
  | cons e tl ih =>
      intro acc y h
      rw [List.foldl_cons]
      exact ih _ _ (discStep_codes_none _ _ _ _ _ h)

lemma foldD_rooms_notin (sid : String) (now : Nat)
    (l : List (String × Room)) :
    ∀ (acc : ServerState × List Output) (x : String),
    x ∉ l.map Prod.fst →
    mapGet (l.foldl (discStep sid now) acc).1.rooms x =
      mapGet acc.1.rooms x := by
  induction l with
  | nil => intro acc x _; rfl
  | cons e tl ih =>
      intro acc x h
      simp only [List.map_cons, List.mem_cons] at h
      push_neg at h
      rw [List.foldl_cons, ih _ _ h.2,
        discStep_rooms_other _ _ _ _ _ (fun he => h.1 he.symm)]

lemma foldD_back (sid : String) (now : Nat) (l : List (String × Room)) :
    ∀ (acc : ServerState × List Output) (x : String) (r' : Room),
    mapGet (l.foldl (discStep sid now) acc).1.rooms x = some r' →
    ∃ r0, mapGet acc.1.rooms x = some r0 ∧
      r'.creatorId = r0.creatorId := by
  induction l with
  | nil => intro acc x r' h; exact ⟨r', h, rfl⟩
  | cons e tl ih =>
      intro acc x r' h
      rw [List.foldl_cons] at h
      obtain ⟨r1, h1, h2⟩ := ih _ _ _ h
      obtain ⟨r0, h3, h4⟩ := discStep_back _ _ _ _ _ _ h1
      exact ⟨r0, h3, h2.trans h4⟩

lemma foldD_creator_destroyed (sid : String) (now : Nat)
    (l : List (String × Room)) :
    ∀ (acc : ServerState × List Output) (rid : String) (r : Room),
    (l.map Prod.fst).Nodup → (rid, r) ∈ l → r.creatorId = sid →
    mapGet acc.1.rooms rid = some r →
    mapGet (l.foldl (discStep sid now) acc).1.rooms rid = none ∧
    mapGet (l.foldl (discStep sid now) acc).1.roomCodes r.code = none ∧
    (sioMembers acc.1.sio rid, SEvent.roomDestroyed rid "Creator disconnected")
      ∈ (l.foldl (discStep sid now) acc).2 := by
  induction l with
  | nil => intro acc rid r _ hmem; simp at hmem
  | cons e tl ih =>
      intro acc rid r hnd hmem hcr hget
      rw [List.foldl_cons]
      rcases List.mem_cons.mp hmem with heq | hmem2
      · subst heq
        have hstep : discStep sid now acc (rid, r) =
            ((destroyRoom acc.1 rid "Creator disconnected").1,
             acc.2 ++ (destroyRoom acc.1 rid "Creator disconnected").2) := by
          unfold discStep
          simp [hcr]
        rw [hstep, destroyRoom_eq_some _ _ _ _ hget]
        refine ⟨?_, ?_, ?_⟩
        · apply foldD_rooms_none
          simp [mapGet_mapDelete]
        · apply foldD_codes_none
          simp [mapGet_mapDelete]
        · apply foldD_out_mono
          simp
      · have hne : e.1 ≠ rid := by
          simp only [List.map_cons, List.nodup_cons] at hnd
          intro he
          exact hnd.1 (he ▸ List.mem_map_of_mem Prod.fst hmem2)
        have hnd2 : (tl.map Prod.fst).Nodup := by
          simp only [List.map_cons, List.nodup_cons] at hnd
          exact hnd.2
        have hget2 : mapGet (discStep sid now acc e).1.rooms rid = some r := by
          rw [discStep_rooms_other _ _ _ _ _ hne]; exact hget
        have := ih (discStep sid now acc e) rid r hnd2 hmem2 hcr hget2
        rwa [discStep_sio_other _ _ _ _ _ hne] at this

lemma foldD_member_left (sid : String) (now : Nat)
    (l : List (String × Room)) :
    ∀ (acc : ServerState × List Output) (rid : String) (r : Room),
    (l.map Prod.fst).Nodup → (rid, r) ∈ l → r.creatorId ≠ sid →
    mapGet acc.1.rooms rid = some r →
    mapGet (l.foldl (discStep sid now) acc).1.rooms rid =
      some { r with lastActive := now } ∧
    (sioMembers acc.1.sio rid, SEvent.userLeft sid rid)
      ∈ (l.foldl (discStep sid now) acc).2 := by
  induction l with
  | nil => intro acc rid r _ hmem; simp at hmem
  | cons e tl ih =>
      intro acc rid r hnd hmem hcr hget
      rw [List.foldl_cons]
      rcases List.mem_cons.mp hmem with heq | hmem2
      · subst heq
        have hnotin : rid ∉ tl.map Prod.fst := by
          simp only [List.map_cons, List.nodup_cons] at hnd
          exact hnd.1
        have hstep : discStep sid now acc (rid, r) =
            ({ acc.1 with
                rooms := mapSet acc.1.rooms rid { r with lastActive := now } },
             acc.2 ++
               [(sioMembers acc.1.sio rid, SEvent.userLeft sid rid)]) := by
          unfold discStep
          simp [hcr, hget]
        rw [hstep]
        constructor
        · rw [foldD_rooms_notin _ _ _ _ _ hnotin]
          simp [mapGet_mapSet]
        · apply foldD_out_mono
          simp
      · have hne : e.1 ≠ rid := by
          simp only [List.map_cons, List.nodup_cons] at hnd
          intro he
          exact hnd.1 (he ▸ List.mem_map_of_mem Prod.fst hmem2)
        have hnd2 : (tl.map Prod.fst).Nodup := by
          simp only [List.map_cons, List.nodup_cons] at hnd
          exact hnd.2
        have hget2 : mapGet (discStep sid now acc e).1.rooms rid = some r := by
          rw [discStep_rooms_other _ _ _ _ _ hne]; exact hget
        have := ih (discStep sid now acc e) rid r hnd2 hmem2 hcr hget2
        rwa [discStep_sio_other _ _ _ _ _ hne] at this

/-! ### Lemmas about the inactivity sweep loop -/

lemma sweepStep_out_mono (now : Nat) (acc : ServerState × List Output)
    (e : String × Room) (o : Output) (h : o ∈ acc.2) :
    o ∈ (sweepStep now acc e).2 := by
  unfold sweepStep
  by_cases h1 : now - e.2.lastActive > INACTIVITY_TIMEOUT
  · simp [h1]; exact Or.inl h
  · simpa [h1] using h

lemma sweepStep_rooms_none (now : Nat) (acc : ServerState × List Output)
    (e : String × Room) (x : String) (h : mapGet acc.1.rooms x = none) :
    mapGet (sweepStep now acc e).1.rooms x = none := by
  unfold sweepStep
  by_cases h1 : now - e.2.lastActive > INACTIVITY_TIMEOUT
  · simp only [h1, if_true]
    exact destroyRoom_rooms_none _ _ _ _ h
  · simpa [h1] using h

lemma sweepStep_rooms_other (now : Nat) (acc : ServerState × List Output)
    (e : String × Room) (x : String) (h : e.1 ≠ x) :
    mapGet (sweepStep now acc e).1.rooms x = mapGet acc.1.rooms x := by
  unfold sweepStep
  by_cases h1 : now - e.2.lastActive > INACTIVITY_TIMEOUT
  · simp only [h1, if_true]
    exact destroyRoom_rooms_other _ _ _ _ h
  · simp [h1]

lemma sweepStep_sio_other (now : Nat) (acc : ServerState × List Output)
    (e : String × Room) (x : String) (h : e.1 ≠ x) :
    sioMembers (sweepStep now acc e).1.sio x = sioMembers acc.1.sio x := by
  unfold sweepStep
  by_cases h1 : now - e.2.lastActive > INACTIVITY_TIMEOUT
  · simp only [h1, if_true]
    exact destroyRoom_sio_other _ _ _ _ h
  · simp [h1]

lemma sweepStep_noemit (now : Nat) (acc : ServerState × List Output)
    (e : String × Room) (rid : String) (h1 : e.1 ≠ rid)
    (h2 : ∀ (recips : List String) (reason : String),
      (recips, SEvent.roomDestroyed rid reason) ∉ acc.2) :
    ∀ (recips : List String) (reason : String),
      (recips, SEvent.roomDestroyed rid reason) ∉ (sweepStep now acc e).2 := by
  intro recips reason hmem
  unfold sweepStep at hmem
  by_cases h3 : now - e.2.lastActive > INACTIVITY_TIMEOUT
  · simp only [h3, if_true] at hmem
    rcases List.mem_append.mp hmem with hl | hr
    · exact h2 _ _ hl
    · have := destroyRoom_out_shape _ _ _ _ hr
      simp at this
      exact h1 this.1.symm
  · simp only [h3, if_false] at hmem
    exact h2 _ _ hmem

lemma sweepStep_back (now : Nat) (acc : ServerState × List Output)
    (e : String × Room) (x : String) (r' : Room)
    (h : mapGet (sweepStep now acc e).1.rooms x = some r') :
    mapGet acc.1.rooms x = some r' := by
  unfold sweepStep at h
  by_cases h1 : now - e.2.lastActive > INACTIVITY_TIMEOUT
  · simp only [h1, if_true] at h
    exact destroyRoom_back _ _ _ _ _ h
  · simpa [h1] using h

lemma foldS_out_mono (now : Nat) (l : List (String × Room)) :
    ∀ (acc : ServerState × List Output) (o : Output), o ∈ acc.2 →
    o ∈ (l.foldl (sweepStep now) acc).2 := by
  induction l with
  | nil => intro acc o h; exact h
  | cons e tl ih =>
      intro acc o h
      rw [List.foldl_cons]
      exact ih _ _ (sweepStep_out_mono _ _ _ _ h)

lemma foldS_rooms_none (now : Nat) (l : List (String × Room)) :
    ∀ (acc : ServerState × List Output) (x : String),
    mapGet acc.1.rooms x = none →
    mapGet (l.foldl (sweepStep now) acc).1.rooms x = none := by
  induction l with
  | nil => intro acc x h; exact h
  | cons e tl ih =>
      intro acc x h
      rw [List.foldl_cons]
      exact ih _ _ (sweepStep_rooms_none _ _ _ _ h)

lemma foldS_keep (now : Nat) (l : List (String × Room)) :
    ∀ (acc : ServerState × List Output) (rid : String),
    rid ∉ l.map Prod.fst →
    (∀ (recips : List String) (reason : String),
      (recips, SEvent.roomDestroyed rid reason) ∉ acc.2) →
    mapGet (l.foldl (sweepStep now) acc).1.rooms rid =
      mapGet acc.1.rooms rid ∧
    ∀ (recips : List String) (reason : String),
      (recips, SEvent.roomDestroyed rid reason) ∉
        (l.foldl (sweepStep now) acc).2 := by
  induction l with
  | nil => intro acc rid _ h2; exact ⟨rfl, h2⟩
  | cons e tl ih =>
      intro acc rid h1 h2
      simp only [List.map_cons, List.mem_cons] at h1
      push_neg at h1
      have hne : e.1 ≠ rid := fun he => h1.1 he.symm
      rw [List.foldl_cons]
      have := ih (sweepStep now acc e) rid h1.2
        (sweepStep_noemit _ _ _ _ hne h2)
      exact ⟨(this.1.trans (sweepStep_rooms_other _ _ _ _ hne)), this.2⟩

lemma foldS_back (now : Nat) (l : List (String × Room)) :
    ∀ (acc : ServerState × List Output) (x : String) (r' : Room),
    mapGet (l.foldl (sweepStep now) acc).1.rooms x = some r' →
    mapGet acc.1.rooms x = some r' := by
  induction l with
  | nil => intro acc x r' h; exact h
  | cons e tl ih =>
      intro acc x r' h
      rw [List.foldl_cons] at h
      exact sweepStep_back _ _ _ _ _ (ih _ _ _ h)

lemma foldS_eligible (now : Nat) (l : List (String × Room)) :
    ∀ (acc : ServerState × List Output) (rid : String) (r : Room),
    (l.map Prod.fst).Nodup → (rid, r) ∈ l →
    now - r.lastActive > INACTIVITY_TIMEOUT →
    mapGet acc.1.rooms rid = some r →
    mapGet (l.foldl (sweepStep now) acc).1.rooms rid = none ∧
    (sioMembers acc.1.sio rid,
      SEvent.roomDestroyed rid "Room expired due to inactivity")
      ∈ (l.foldl (sweepStep now) acc).2 := by
  induction l with
  | nil => intro acc rid r _ hmem; simp at hmem
  | cons e tl ih =>
      intro acc rid r hnd hmem helig hget
      rw [List.foldl_cons]
      rcases List.mem_cons.mp hmem with heq | hmem2
      · subst heq
        have hstep : sweepStep now acc (rid, r) =
            ((destroyRoom acc.1 rid "Room expired due to inactivity").1,
             acc.2 ++
               (destroyRoom acc.1 rid "Room expired due to inactivity").2) := by
          unfold sweepStep
          simp [helig]
        rw [hstep, destroyRoom_eq_some _ _ _ _ hget]
        constructor
        · apply foldS_rooms_none
          simp [mapGet_mapDelete]
        · apply foldS_out_mono
          simp
      · have hne : e.1 ≠ rid := by
          simp only [List.map_cons, List.nodup_cons] at hnd
          intro he
          exact hnd.1 (he ▸ List.mem_map_of_mem Prod.fst hmem2)
        have hnd2 : (tl.map Prod.fst).Nodup := by
          simp only [List.map_cons, List.nodup_cons] at hnd
          exact hnd.2
        have hget2 : mapGet (sweepStep now acc e).1.rooms rid = some r := by
          rw [sweepStep_rooms_other _ _ _ _ hne]; exact hget
        have := ih (sweepStep now acc e) rid r hnd2 hmem2 helig hget2
        rwa [sweepStep_sio_other _ _ _ _ hne] at this

lemma foldS_ineligible (now : Nat) (l : List (String × Room)) :
    ∀ (acc : ServerState × List Output) (rid : String) (r : Room),
    (l.map Prod.fst).Nodup → (rid, r) ∈ l →
    ¬(now - r.lastActive > INACTIVITY_TIMEOUT) →
    mapGet acc.1.rooms rid = some r →
    (∀ (recips : List String) (reason : String),
      (recips, SEvent.roomDestroyed rid reason) ∉ acc.2) →
    mapGet (l.foldl (sweepStep now) acc).1.rooms rid = some r ∧
    ∀ (recips : List String) (reason : String),
      (recips, SEvent.roomDestroyed rid reason) ∉
        (l.foldl (sweepStep now) acc).2 := by
  induction l with
  | nil => intro acc rid r _ hmem; simp at hmem
  | cons e tl ih =>
      intro acc rid r hnd hmem helig hget hno
      rw [List.foldl_cons]
      rcases List.mem_cons.mp hmem with heq | hmem2
      · subst heq
        have hnotin : rid ∉ tl.map Prod.fst := by
          simp only [List.map_cons, List.nodup_cons] at hnd
          exact hnd.1
        have hstep : sweepStep now acc (rid, r) = acc := by
          unfold sweepStep
          simp [helig]
        rw [hstep]
        have := foldS_keep now tl acc rid hnotin hno
        exact ⟨this.1.trans hget, this.2⟩
      · have hne : e.1 ≠ rid := by
          simp only [List.map_cons, List.nodup_cons] at hnd
          intro he
          exact hnd.1 (he ▸ List.mem_map_of_mem Prod.fst hmem2)
        have hnd2 : (tl.map Prod.fst).Nodup := by
          simp only [List.map_cons, List.nodup_cons] at hnd
          exact hnd.2
        have hget2 : mapGet (sweepStep now acc e).1.rooms rid = some r := by
          rw [sweepStep_rooms_other _ _ _ _ hne]; exact hget
        exact ih (sweepStep now acc e) rid r hnd2 hmem2 helig hget2
          (sweepStep_noemit _ _ _ _ hne hno)

/-! ### Helper lemma shared by the teardown claims -/

lemma joinRoom_code_unmapped (s : ServerState) (sid c : String) (now : Nat)
    (u : User) (h1 : mapGet s.users sid = some u)
    (h2 : mapGet s.roomCodes (jsUpper c) = none)
    (h3 : mapGet s.rooms "" = none) :
    handleJoinRoom sid c now s =
      (s, [([sid], SEvent.ackError "Room not found")]) := by
  unfold handleJoinRoom
  rw [h1]
  simp only [h2, Option.getD_none]
  rw [h3]

/-! ### Claim theorems -/

/-- Claim C3: room destruction is idempotent.  For a room that is
present, the first `destroyRoom` broadcasts `room_destroyed` exactly once
(to the members captured before teardown) and removes the room; a second
`destroyRoom` on the same id finds the room gone, performs no mutation
and emits nothing. -/
theorem claim3_destroy_idempotent (s : ServerState)
    (rid reason reason' : String) (r : Room)
    (h : mapGet s.rooms rid = some r) :
    (destroyRoom s rid reason).2 =
      [(sioMembers s.sio rid, SEvent.roomDestroyed rid reason)] ∧
    mapGet (destroyRoom s rid reason).1.rooms rid = none ∧
    destroyRoom (destroyRoom s rid reason).1 rid reason' =
      ((destroyRoom s rid reason).1, []) := by
  rw [destroyRoom_eq_some _ _ _ _ h]
  refine ⟨rfl, ?_, ?_⟩
  · simp [mapGet_mapDelete]
  · apply destroyRoom_eq_none
    simp [mapGet_mapDelete]

/-- Witness for claim C3 at a concrete one-room state. -/
theorem claim3_destroy_idempotent_witness :
    (destroyRoom stateA "ra" "gone").2 =
      [(["a"], SEvent.roomDestroyed "ra" "gone")] ∧
    mapGet (destroyRoom stateA "ra" "gone").1.rooms "ra" = none ∧
    destroyRoom (destroyRoom stateA "ra" "gone").1 "ra" "again" =
      ((destroyRoom stateA "ra" "gone").1, []) :=
  claim3_destroy_idempotent stateA "ra" "gone" "again"
    ⟨"ra", "AAAAAA", "a", 1, 0⟩ rfl

/-- Claim C10: a `send_message` whose `roomId` does not resolve to an
active room leaves the whole server state unchanged and emits no event
and no error response. -/
theorem claim10_unknown_room_silent (s : ServerState) (sid : String)
    (p : Payload) (now : Nat) (h : mapGet s.rooms p.roomId = none) :
    handleSendMessage sid p now s = (s, []) := by
  unfold handleSendMessage
  rw [h]

/-- Witness for claim C10: a message naming the unknown room `zz`. -/
theorem claim10_unknown_room_silent_witness :
    handleSendMessage "b" ⟨"zz", "b", "cipher", "iv1"⟩ 9 stateA =
      (stateA, []) :=
  claim10_unknown_room_silent stateA "b" ⟨"zz", "b", "cipher", "iv1"⟩ 9 rfl

/-- Counterexample to claim C8: a second `login` on the same connection
does not fail with `AlreadyRegistered` — it is acknowledged as a success
and it overwrites the session registry entry of that connection. -/
theorem claim8_counterexample :
    loginTwiceRes.2 = [(["a"], SEvent.ackUser ⟨"a", "bob"⟩)] ∧
    mapGet (handleLogin "a" "alice" initState).1.users "a" =
      some ⟨"a", "alice"⟩ ∧
    mapGet loginTwiceRes.1.users "a" = some ⟨"a", "bob"⟩ ∧
    (⟨"a", "bob"⟩ : User) ≠ ⟨"a", "alice"⟩ := by
  refine ⟨rfl, rfl, rfl, ?_⟩
  decide

/-- Claim C8 amended: a second `login` on the same connection without an
intervening disconnect succeeds: the registry entry for that connection
is overwritten with the new user record, and the success acknowledgement
goes to that connection only, with no broadcast. -/
theorem claim8_amended_login_overwrites (s : ServerState)
    (sid name : String) (u : User) (h : mapGet s.users sid = some u) :
    handleLogin sid name s =
      ({ s with users := mapSet s.users sid ⟨sid, name⟩ },
       [([sid], SEvent.ackUser ⟨sid, name⟩)]) := rfl

/-- Witness for amended claim C8: second login of connection `a`. -/
theorem claim8_amended_login_overwrites_witness :
    handleLogin "a" "bob" (handleLogin "a" "alice" initState).1 =
      ({ (handleLogin "a" "alice" initState).1 with
          users := mapSet (handleLogin "a" "alice" initState).1.users "a"
            ⟨"a", "bob"⟩ },
       [(["a"], SEvent.ackUser ⟨"a", "bob"⟩)]) :=
  claim8_amended_login_overwrites (handleLogin "a" "alice" initState).1
    "a" "bob" ⟨"a", "alice"⟩ rfl

/-- Counterexample to claim C2: `create_room` does not retry on a code
collision.  Two creates whose single code-generator samples coincide
leave two concurrently active rooms carrying the same join code; the
code index silently repoints to the newer room. -/
theorem claim2_counterexample :
    mapGet collideState.rooms "ra" = some ⟨"ra", "AAAAAA", "a", 1, 0⟩ ∧
    mapGet collideState.rooms "rb" = some ⟨"rb", "AAAAAA", "b", 1, 1⟩ ∧
    mapGet collideState.roomCodes "AAAAAA" = some "rb" :=
  ⟨rfl, rfl, rfl⟩

/-- Claim C2 amended: `create_room` samples the code generator exactly
once and performs no collision check: the new room is always inserted
with the sampled code, the code index entry for that code is overwritten
to the new room, and a pre-existing active room with the same code stays
active, so two coexisting rooms can share a join code. -/
theorem claim2_amended_no_retry (s : ServerState) (sid : String) (u : User)
    (rid code : String) (now : Nat) (rid0 : String) (r0 : Room)
    (h1 : mapGet s.users sid = some u) (h2 : mapGet s.rooms rid0 = some r0)
    (h3 : rid ≠ rid0) (h4 : r0.code = code) :
    mapGet (handleCreateRoom sid rid code now s).1.rooms rid =
      some ⟨rid, code, sid, 1, now⟩ ∧
    mapGet (handleCreateRoom sid rid code now s).1.rooms rid0 = some r0 ∧
    mapGet (handleCreateRoom sid rid code now s).1.roomCodes code =
      some rid := by
  unfold handleCreateRoom
  rw [h1]
  refine ⟨?_, ?_, ?_⟩
  · simp [mapGet_mapSet]
  · simp [mapGet_mapSet, h3, h2]
  · simp [mapGet_mapSet]

/-- Witness for amended claim C2: the second colliding create. -/
theorem claim2_amended_no_retry_witness :
    mapGet collideState.rooms "rb" = some ⟨"rb", "AAAAAA", "b", 1, 1⟩ ∧
    mapGet collideState.rooms "ra" = some ⟨"ra", "AAAAAA", "a", 1, 0⟩ ∧
    mapGet collideState.roomCodes "AAAAAA" = some "rb" :=
  claim2_amended_no_retry
    (handleCreateRoom "a" "ra" "AAAAAA" 0
      (handleLogin "b" "bob" (handleLogin "a" "alice" initState).1).1).1
    "b" ⟨"b", "bob"⟩ "rb" "AAAAAA" 1 "ra" ⟨"ra", "AAAAAA", "a", 1, 0⟩
    rfl rfl (by decide) rfl

/-- Counterexample to claim C7: a `send_message` from session `b`, which
is registered but not a member of room `ra`, is relayed to the room
anyway — it is neither dropped nor rejected with `NotAMember`. -/
theorem claim7_counterexample :
    (handleSendMessage "b" ⟨"ra", "b", "cipher", "iv1"⟩ 9 stateA).2 =
      [(["a"], SEvent.newMessage ⟨"ra", "b", "cipher", "iv1"⟩)] ∧
    "b" ∉ sioMembers stateA.sio "ra" ∧
    mapGet stateA.users "b" = some ⟨"b", "bob"⟩ := by
  refine ⟨rfl, ?_, rfl⟩
  decide

/-- Claim C7 amended: `send_message` performs no membership validation:
whenever the payload names an active room, the payload is relayed to the
current members of that room regardless of whether the sender is one of
them; only a payload naming no active room is dropped. -/
theorem claim7_amended_no_membership_check (s : ServerState) (sid : String)
    (p : Payload) (now : Nat) (room : Room)
    (h : mapGet s.rooms p.roomId = some room) :
    handleSendMessage sid p now s =
      ({ s with
          rooms := mapSet s.rooms p.roomId { room with lastActive := now } },
       [(sioMembers s.sio room.id, SEvent.newMessage p)]) := by
  unfold handleSendMessage
  rw [h]

/-- Witness for amended claim C7: the non-member send from `b`. -/
theorem claim7_amended_no_membership_check_witness :
    handleSendMessage "b" ⟨"ra", "b", "cipher", "iv1"⟩ 9 stateA =
      ({ stateA with
          rooms := mapSet stateA.rooms "ra"
            { (⟨"ra", "AAAAAA", "a", 1, 0⟩ : Room) with lastActive := 9 } },
       [(["a"], SEvent.newMessage ⟨"ra", "b", "cipher", "iv1"⟩)]) :=
  claim7_amended_no_membership_check stateA "b" ⟨"ra", "b", "cipher", "iv1"⟩
    9 ⟨"ra", "AAAAAA", "a", 1, 0⟩ rfl

/-- Counterexample to claim C9: the sender identity on the delivered
`new_message` event is NOT attached by the server.  Session `a` sends a
payload whose client-declared sender field says `mallory`; the relayed
event carries `mallory` untouched even though the sending session is
`a`. -/
theorem claim9_counterexample :
    (handleSendMessage "a" ⟨"ra", "mallory", "cipher", "iv1"⟩ 9 stateA).2 =
      [(["a"], SEvent.newMessage ⟨"ra", "mallory", "cipher", "iv1"⟩)] ∧
    ("mallory" : String) ≠ "a" := by
  refine ⟨rfl, ?_⟩
  decide

/-- Claim C9 amended: the relayed payload is broadcast unchanged (never
inspected beyond its room id, never rewritten) to the current members of
the room, a recipient set that includes the sender whenever the sender
is a member; the sender identity delivered with the event is whatever
the client placed into the payload — the server attaches nothing. -/
theorem claim9_amended_opaque_relay (s : ServerState) (sid : String)
    (p : Payload) (now : Nat) (room : Room)
    (h : mapGet s.rooms p.roomId = some room) :
    (handleSendMessage sid p now s).2 =
      [(sioMembers s.sio room.id, SEvent.newMessage p)] ∧
    (sid ∈ sioMembers s.sio room.id →
      ∀ o ∈ (handleSendMessage sid p now s).2, sid ∈ o.1) := by
  unfold handleSendMessage
  rw [h]
  refine ⟨rfl, ?_⟩
  intro hm o ho
  simp at ho
  rw [ho]
  exact hm

/-- Witness for amended claim C9: a member sender receives its own echo
with the client-declared sender field intact. -/
theorem claim9_amended_opaque_relay_witness :
    (handleSendMessage "a" ⟨"ra", "mallory", "cipher", "iv1"⟩ 9 stateA).2 =
      [(["a"], SEvent.newMessage ⟨"ra", "mallory", "cipher", "iv1"⟩)] ∧
    ("a" ∈ sioMembers stateA.sio "ra" →
      ∀ o ∈ (handleSendMessage "a" ⟨"ra", "mallory", "cipher", "iv1"⟩
        9 stateA).2, "a" ∈ o.1) :=
  claim9_amended_opaque_relay stateA "a" ⟨"ra", "mallory", "cipher", "iv1"⟩
    9 ⟨"ra", "AAAAAA", "a", 1, 0⟩ rfl

/-- Counterexample to claim C6: after a re-join by the already-member
session `b`, room `ra` records `participantCount = 3` while its
membership set has exactly the two elements `b` and `a` — count and
membership diverge. -/
theorem claim6_counterexample :
    mapGet rejoinState.rooms "ra" = some ⟨"ra", "AAAAAA", "a", 3, 2⟩ ∧
    sioMembers rejoinState.sio "ra" = ["b", "a"] ∧
    (3 : Nat) ≠ ["b", "a"].length := by
  refine ⟨rfl, rfl, ?_⟩
  decide

/-- Claim C6 amended: `participantCount` is a plain counter, not the
cardinality of the membership set: it starts at 1 on create, is
incremented by every successful join — including a re-join by a session
that is already a member — and is never decremented by a non-creator
leave, so it can exceed the number of members. -/
theorem claim6_amended_counter_drift :
    (∀ (s : ServerState) (sid : String) (u : User) (rid code : String)
       (now : Nat), mapGet s.users sid = some u →
       mapGet (handleCreateRoom sid rid code now s).1.rooms rid =
         some ⟨rid, code, sid, 1, now⟩) ∧
    (∀ (s : ServerState) (sid : String) (u : User) (code : String)
       (now : Nat) (rid : String) (r : Room),
       mapGet s.users sid = some u →
       mapGet s.roomCodes (jsUpper code) = some rid →
       mapGet s.rooms rid = some r →
       mapGet (handleJoinRoom sid code now s).1.rooms rid =
         some { r with
                  participantCount := r.participantCount + 1,
                  lastActive := now }) ∧
    (∀ (s : ServerState) (sid rid : String) (now : Nat) (r : Room),
       mapGet s.rooms rid = some r → r.creatorId ≠ sid →
       mapGet (handleLeaveRoom sid rid now s).1.rooms rid =
         some { r with lastActive := now }) := by
  refine ⟨?_, ?_, ?_⟩
  · intro s sid u rid code now h
    unfold handleCreateRoom
    rw [h]
    simp [mapGet_mapSet]
  · intro s sid u code now rid r hu hc hr
    unfold handleJoinRoom
    rw [hu]
    simp only [hc, Option.getD_some]
    rw [hr]
    simp [mapGet_mapSet]
  · intro s sid rid now r hr hcr
    unfold handleLeaveRoom
    rw [hr]
    simp only [hcr, if_false]
    simp [mapGet_mapSet]

/-- Witness for amended claim C6, instantiating all three parts on the
concrete re-join scenario behind `rejoinState`. -/
theorem claim6_amended_counter_drift_witness :
    mapGet (handleCreateRoom "a" "ra" "AAAAAA" 0
      (handleLogin "b" "bob" (handleLogin "a" "alice" initState).1).1).1.rooms
      "ra" = some ⟨"ra", "AAAAAA", "a", 1, 0⟩ ∧
    mapGet rejoinState.rooms "ra" = some ⟨"ra", "AAAAAA", "a", 3, 2⟩ ∧
    mapGet (handleLeaveRoom "b" "ra" 4 rejoinState).1.rooms "ra" =
      some ⟨"ra", "AAAAAA", "a", 3, 4⟩ := by
  have h := claim6_amended_counter_drift
  refine ⟨h.1 _ "a" ⟨"a", "alice"⟩ "ra" "AAAAAA" 0 rfl, ?_, ?_⟩
  · exact h.2.1 _ "b" ⟨"b", "bob"⟩ "AAAAAA" 2 "ra" ⟨"ra", "AAAAAA", "a", 2, 1⟩
      rfl rfl rfl
  · exact h.2.2 rejoinState "b" "ra" 4 ⟨"ra", "AAAAAA", "a", 3, 2⟩ rfl
      (by decide)

/-- Counterexample to claim C5: when `a` disconnects, the server emits a
`user_left` for room `rb` even though `a` is not a member of `rb` (the
loop walks every room in the directory, not the rooms of the session),
and the destruction reason string is `Creator disconnected`, not
`creator disconnected`. -/
theorem claim5_counterexample :
    (["b"], SEvent.userLeft "a" "rb") ∈ (handleDisconnect "a" 5 stateB).2 ∧
    "a" ∉ sioMembers stateB.sio "rb" ∧
    (["a", "b"], SEvent.roomDestroyed "ra" "Creator disconnected")
      ∈ (handleDisconnect "a" 5 stateB).2 ∧
    (∀ o ∈ (handleDisconnect "a" 5 stateB).2,
      o.2 ≠ SEvent.roomDestroyed "ra" "creator disconnected") := by
  refine ⟨?_, ?_, ?_, ?_⟩ <;> decide

/-- Claim C5 amended: when a registered connection disconnects, a single
pass over the room directory destroys every room whose creator is that
session (reason `Creator disconnected`, broadcast to the members
captured before teardown), emits `user_left` — and bumps the activity
clock — for every OTHER room in the directory regardless of membership,
and finally removes the session from the registry. -/
theorem claim5_amended_disconnect_pass (s : ServerState) (sid : String)
    (u : User) (now : Nat) (hu : mapGet s.users sid = some u)
    (hnd : (s.rooms.map Prod.fst).Nodup) :
    (∀ (rid : String) (r : Room),
       mapGet s.rooms rid = some r → r.creatorId = sid →
       mapGet (handleDisconnect sid now s).1.rooms rid = none ∧
       (sioMembers s.sio rid, SEvent.roomDestroyed rid "Creator disconnected")
         ∈ (handleDisconnect sid now s).2) ∧
    (∀ (rid : String) (r : Room),
       mapGet s.rooms rid = some r → r.creatorId ≠ sid →
       mapGet (handleDisconnect sid now s).1.rooms rid =
         some { r with lastActive := now } ∧
       (sioMembers s.sio rid, SEvent.userLeft sid rid)
         ∈ (handleDisconnect sid now s).2) ∧
    mapGet (handleDisconnect sid now s).1.users sid = none := by
  have hD : handleDisconnect sid now s =
      ({ (s.rooms.foldl (discStep sid now) (s, [])).1 with
          users :=
            mapDelete (s.rooms.foldl (discStep sid now) (s, [])).1.users
              sid },
       (s.rooms.foldl (discStep sid now) (s, [])).2) := by
    unfold handleDisconnect
    rw [hu]
  rw [hD]
  refine ⟨?_, ?_, ?_⟩
  · intro rid r hget hcr
    exact And.intro
      (foldD_creator_destroyed sid now s.rooms (s, []) rid r hnd
        (mapGet_mem _ _ _ hget) hcr hget).1
      (foldD_creator_destroyed sid now s.rooms (s, []) rid r hnd
        (mapGet_mem _ _ _ hget) hcr hget).2.2
  · intro rid r hget hcr
    exact foldD_member_left sid now s.rooms (s, []) rid r hnd
      (mapGet_mem _ _ _ hget) hcr hget
  · rw [foldD_users]
    simp [mapGet_mapDelete]

/-- Witness for amended claim C5 at the two-room state `stateB`. -/
theorem claim5_amended_disconnect_pass_witness :
    (mapGet (handleDisconnect "a" 5 stateB).1.rooms "ra" = none ∧
     (["a", "b"], SEvent.roomDestroyed "ra" "Creator disconnected")
       ∈ (handleDisconnect "a" 5 stateB).2) ∧
    (mapGet (handleDisconnect "a" 5 stateB).1.rooms "rb" =
       some ⟨"rb", "BBBBBB", "b", 1, 5⟩ ∧
     (["b"], SEvent.userLeft "a" "rb") ∈ (handleDisconnect "a" 5 stateB).2) ∧
    mapGet (handleDisconnect "a" 5 stateB).1.users "a" = none := by
  have h := claim5_amended_disconnect_pass stateB "a" ⟨"a", "alice"⟩ 5 rfl
    (by decide)
  exact ⟨h.1 "ra" ⟨"ra", "AAAAAA", "a", 1, 0⟩ rfl rfl,
    h.2.1 "rb" ⟨"rb", "BBBBBB", "b", 1, 0⟩ rfl (by decide), h.2.2⟩

/-- Counterexample to claim C4: the sweep does destroy the idle room on
the next tick, but the destruction reason it broadcasts is
`Room expired due to inactivity`, not `expired due to inactivity` as the
claim states. -/
theorem claim4_counterexample :
    (handleSweep 3600001 stateA).2 =
      [(["a"], SEvent.roomDestroyed "ra" "Room expired due to inactivity")] ∧
    mapGet (handleSweep 3600001 stateA).1.rooms "ra" = none ∧
    (3600001 : Nat) - 0 > INACTIVITY_TIMEOUT ∧
    (∀ o ∈ (handleSweep 3600001 stateA).2,
      o.2 ≠ SEvent.roomDestroyed "ra" "expired due to inactivity") := by
  refine ⟨rfl, rfl, ?_, ?_⟩ <;> decide

/-- Claim C4 amended: a sweep tick at time `now` destroys exactly the
rooms whose idle time strictly exceeds `INACTIVITY_TIMEOUT`, announcing
`room_destroyed` with reason `Room expired due to inactivity` to the
members captured before teardown, and leaves every other room untouched
with no destruction event; every successful join, relayed message and
non-creator leave resets the last-activity clock of the room to the
current time. -/
theorem claim4_amended_idle_reclamation :
    (∀ (s : ServerState) (now : Nat) (rid : String) (r : Room),
       (s.rooms.map Prod.fst).Nodup → mapGet s.rooms rid = some r →
       now - r.lastActive > INACTIVITY_TIMEOUT →
       mapGet (handleSweep now s).1.rooms rid = none ∧
       (sioMembers s.sio rid,
         SEvent.roomDestroyed rid "Room expired due to inactivity")
         ∈ (handleSweep now s).2) ∧
    (∀ (s : ServerState) (now : Nat) (rid : String) (r : Room),
       (s.rooms.map Prod.fst).Nodup → mapGet s.rooms rid = some r →
       now - r.lastActive ≤ INACTIVITY_TIMEOUT →
       mapGet (handleSweep now s).1.rooms rid = some r ∧
       ∀ (recips : List String) (reason : String),
         (recips, SEvent.roomDestroyed rid reason) ∉ (handleSweep now s).2) ∧
    (∀ (s : ServerState) (sid : String) (u : User) (code : String)
       (now : Nat) (rid : String) (r : Room),
       mapGet s.users sid = some u →
       mapGet s.roomCodes (jsUpper code) = some rid →
       mapGet s.rooms rid = some r →
       ∃ r', mapGet (handleJoinRoom sid code now s).1.rooms rid = some r' ∧
         r'.lastActive = now) ∧
    (∀ (s : ServerState) (sid : String) (p : Payload) (now : Nat)
       (room : Room), mapGet s.rooms p.roomId = some room →
       ∃ r', mapGet (handleSendMessage sid p now s).1.rooms p.roomId =
         some r' ∧ r'.lastActive = now) ∧
    (∀ (s : ServerState) (sid rid : String) (now : Nat) (r : Room),
       mapGet s.rooms rid = some r → r.creatorId ≠ sid →
       ∃ r', mapGet (handleLeaveRoom sid rid now s).1.rooms rid = some r' ∧
         r'.lastActive = now) := by
  refine ⟨?_, ?_, ?_, ?_, ?_⟩
  · intro s now rid r hnd hget helig
    exact foldS_eligible now s.rooms (s, []) rid r hnd
      (mapGet_mem _ _ _ hget) helig hget
  · intro s now rid r hnd hget hle
    exact foldS_ineligible now s.rooms (s, []) rid r hnd
      (mapGet_mem _ _ _ hget) (not_lt.mpr hle) hget (by simp)
  · intro s sid u code now rid r hu hc hr
    refine ⟨{ r with
        participantCount := r.participantCount + 1, lastActive := now },
      ?_, rfl⟩
    unfold handleJoinRoom
    rw [hu]
    simp only [hc, Option.getD_some]
    rw [hr]
    simp [mapGet_mapSet]
  · intro s sid p now room h
    refine ⟨{ room with lastActive := now }, ?_, rfl⟩
    unfold handleSendMessage
    rw [h]
    simp [mapGet_mapSet]
  · intro s sid rid now r hr hcr
    refine ⟨{ r with lastActive := now }, ?_, rfl⟩
    unfold handleLeaveRoom
    rw [hr]
    simp only [hcr, if_false]
    simp [mapGet_mapSet]

/-- Witness for amended claim C4: a sweep one millisecond past the
timeout destroys the idle room, a sweep exactly at the timeout does not,
and join, message and leave each stamp the clock. -/
theorem claim4_amended_idle_reclamation_witness :
    (mapGet (handleSweep 3600001 stateA).1.rooms "ra" = none ∧
     (["a"], SEvent.roomDestroyed "ra" "Room expired due to inactivity")
       ∈ (handleSweep 3600001 stateA).2) ∧
    (mapGet (handleSweep 3600000 stateA).1.rooms "ra" =
       some ⟨"ra", "AAAAAA", "a", 1, 0⟩ ∧
     ∀ (recips : List String) (reason : String),
       (recips, SEvent.roomDestroyed "ra" reason)
         ∉ (handleSweep 3600000 stateA).2) ∧
    (∃ r', mapGet (handleJoinRoom "b" "AAAAAA" 1
        (handleCreateRoom "a" "ra" "AAAAAA" 0
          (handleLogin "b" "bob"
            (handleLogin "a" "alice" initState).1).1).1).1.rooms "ra" =
      some r' ∧ r'.lastActive = 1) ∧
    (∃ r', mapGet (handleSendMessage "a" ⟨"ra", "a", "cipher", "iv1"⟩
        9 stateA).1.rooms "ra" = some r' ∧ r'.lastActive = 9) ∧
    (∃ r', mapGet (handleLeaveRoom "b" "ra" 4 rejoinState).1.rooms "ra" =
      some r' ∧ r'.lastActive = 4) := by
  have h := claim4_amended_idle_reclamation
  refine ⟨h.1 stateA 3600001 "ra" ⟨"ra", "AAAAAA", "a", 1, 0⟩ (by decide)
      rfl (by decide),
    h.2.1 stateA 3600000 "ra" ⟨"ra", "AAAAAA", "a", 1, 0⟩ (by decide)
      rfl (by decide),
    h.2.2.1 _ "b" ⟨"b", "bob"⟩ "AAAAAA" 1 "ra" ⟨"ra", "AAAAAA", "a", 1, 0⟩
      rfl rfl rfl,
    h.2.2.2.1 stateA "a" ⟨"ra", "a", "cipher", "iv1"⟩ 9
      ⟨"ra", "AAAAAA", "a", 1, 0⟩ rfl,
    h.2.2.2.2 rejoinState "b" "ra" 4 ⟨"ra", "AAAAAA", "a", 3, 2⟩ rfl
      (by decide)⟩

/-- Claim C1: the creator identifier of a room never changes while the
room exists (for any event, assuming the freshly sampled UUID of a
create does not collide with a live room id), and both a disconnect of
the creator and an explicit leave by the creator destroy the room: the
members captured before teardown receive `room_destroyed`, and a
subsequent `join_room` with the old code fails with the room-not-found
error. -/
theorem claim1_creator_invariant_and_teardown :
    (∀ (e : Event) (s : ServerState) (rid : String) (r r' : Room),
       freshIds e s → mapGet s.rooms rid = some r →
       mapGet (step e s).1.rooms rid = some r' →
       r'.creatorId = r.creatorId) ∧
    (∀ (s : ServerState) (sid : String) (u : User) (now : Nat)
       (rid : String) (r : Room),
       mapGet s.users sid = some u →
       (s.rooms.map Prod.fst).Nodup →
       mapGet s.rooms rid = some r → r.creatorId = sid →
       mapGet (handleDisconnect sid now s).1.rooms rid = none ∧
       (sioMembers s.sio rid,
         SEvent.roomDestroyed rid "Creator disconnected")
         ∈ (handleDisconnect sid now s).2 ∧
       ∀ (sid2 : String) (u2 : User) (c : String) (now2 : Nat),
         mapGet (handleDisconnect sid now s).1.users sid2 = some u2 →
         jsUpper c = r.code →
         mapGet s.rooms "" = none →
         (handleJoinRoom sid2 c now2 (handleDisconnect sid now s).1).2 =
           [([sid2], SEvent.ackError "Room not found")]) ∧
    (∀ (s : ServerState) (sid : String) (now : Nat) (rid : String)
       (r : Room),
       mapGet s.rooms rid = some r → r.creatorId = sid →
       mapGet (handleLeaveRoom sid rid now s).1.rooms rid = none ∧
       (handleLeaveRoom sid rid now s).2 =
         [(sioMembers s.sio rid,
           SEvent.roomDestroyed rid "Creator left the room")] ∧
       ∀ (sid2 : String) (u2 : User) (c : String) (now2 : Nat),
         mapGet (handleLeaveRoom sid rid now s).1.users sid2 = some u2 →
         jsUpper c = r.code →
         mapGet s.rooms "" = none →
         (handleJoinRoom sid2 c now2 (handleLeaveRoom sid rid now s).1).2 =
           [([sid2], SEvent.ackError "Room not found")]) := by
  refine ⟨?_, ?_, ?_⟩
  · intro e s rid r r' hf hget hget'
    cases e with
    | login sid un =>
        simp only [step, handleLogin] at hget'
        rw [hget] at hget'
        injection hget' with he
        rw [he]
    | createRoom sid rid0 c now =>
        simp only [freshIds] at hf
        cases hu : mapGet s.users sid with
        | none =>
            simp only [step, handleCreateRoom, hu] at hget'
            rw [hget] at hget'
            injection hget' with he
            rw [he]
        | some u0 =>
            simp only [step, handleCreateRoom, hu] at hget'
            rw [mapGet_mapSet] at hget'
            by_cases h3 : rid0 = rid
            · rw [h3] at hf
              rw [hf] at hget
              exact Option.noConfusion hget
            · rw [if_neg h3] at hget'
              rw [hget] at hget'
              injection hget' with he
              rw [he]
    | joinRoom sid c now =>
        cases hu : mapGet s.users sid with
        | none =>
            simp only [step, handleJoinRoom, hu] at hget'
            rw [hget] at hget'
            injection hget' with he
            rw [he]
        | some u0 =>
            cases hr : mapGet s.rooms
                ((mapGet s.roomCodes (jsUpper c)).getD "") with
            | none =>
                simp only [step, handleJoinRoom, hu, hr] at hget'
                rw [hget] at hget'
                injection hget' with he
                rw [he]
            | some room =>
                simp only [step, handleJoinRoom, hu, hr] at hget'
                rw [mapGet_mapSet] at hget'
                by_cases h3 :
                    (mapGet s.roomCodes (jsUpper c)).getD "" = rid
                · rw [if_pos h3] at hget'
                  rw [h3] at hr
                  rw [hget] at hr
                  injection hr with he
                  injection hget' with he2
                  rw [← he2, ← he]
                · rw [if_neg h3] at hget'
                  rw [hget] at hget'
                  injection hget' with he
                  rw [he]
    | sendMessage sid p now =>
        cases hr : mapGet s.rooms p.roomId with
        | none =>
            simp only [step, handleSendMessage, hr] at hget'
            rw [hget] at hget'
            injection hget' with he
            rw [he]
        | some room =>
            simp only [step, handleSendMessage, hr] at hget'
            rw [mapGet_mapSet] at hget'
            by_cases h3 : p.roomId = rid
            · rw [if_pos h3] at hget'
              rw [h3] at hr
              rw [hget] at hr
              injection hr with he
              injection hget' with he2
              rw [← he2, ← he]
            · rw [if_neg h3] at hget'
              rw [hget] at hget'
              injection hget' with he
              rw [he]
    | leaveRoom sid rid0 now =>
        cases hr : mapGet s.rooms rid0 with
        | none =>
            simp only [step, handleLeaveRoom, hr] at hget'
            rw [hget] at hget'
            injection hget' with he
            rw [he]
        | some room =>
            by_cases hcr : room.creatorId = sid
            · simp only [step, handleLeaveRoom, hr, hcr, if_true] at hget'
              have := destroyRoom_back _ _ _ _ _ hget'
              rw [hget] at this
              injection this with he
              rw [he]
            · simp only [step, handleLeaveRoom, hr, hcr, if_false] at hget'
              rw [mapGet_mapSet] at hget'
              by_cases h3 : rid0 = rid
              · rw [if_pos h3] at hget'
                rw [h3] at hr
                rw [hget] at hr
                injection hr with he
                injection hget' with he2
                rw [← he2, ← he]
              · rw [if_neg h3] at hget'
                rw [hget] at hget'
                injection hget' with he
                rw [he]
    | disconnect sid now =>
        cases hu : mapGet s.users sid with
        | none =>
            simp only [step, handleDisconnect, hu] at hget'
            rw [hget] at hget'
            injection hget' with he
            rw [he]
        | some u0 =>
            simp only [step, handleDisconnect, hu] at hget'
            obtain ⟨r0, hr0, hcr⟩ :=
              foldD_back sid now s.rooms (s, []) rid r' hget'
            rw [hget] at hr0
            injection hr0 with he
            rw [hcr, ← he]
    | sweep now =>
        simp only [step, handleSweep] at hget'
        have := foldS_back now s.rooms (s, []) rid r' hget'
        rw [hget] at this
        injection this with he
        rw [he]
  · intro s sid u now rid r hu hnd hget hcr
    have hD : handleDisconnect sid now s =
        ({ (s.rooms.foldl (discStep sid now) (s, [])).1 with
            users :=
              mapDelete
                (s.rooms.foldl (discStep sid now) (s, [])).1.users sid },
         (s.rooms.foldl (discStep sid now) (s, [])).2) := by
      unfold handleDisconnect
      rw [hu]
    have hfold := foldD_creator_destroyed sid now s.rooms (s, []) rid r
      hnd (mapGet_mem _ _ _ hget) hcr hget
    rw [hD]
    refine ⟨hfold.1, hfold.2.2, ?_⟩
    intro sid2 u2 c now2 hu2 hcode hempty
    have h2 : mapGet
        (s.rooms.foldl (discStep sid now) (s, [])).1.roomCodes
        (jsUpper c) = none := by
      rw [hcode]
      exact hfold.2.1
    have h3 : mapGet
        (s.rooms.foldl (discStep sid now) (s, [])).1.rooms "" = none :=
      foldD_rooms_none sid now s.rooms (s, []) "" hempty
    rw [joinRoom_code_unmapped _ sid2 c now2 u2 hu2 h2 h3]
  · intro s sid now rid r hget hcr
    have hL : handleLeaveRoom sid rid now s =
        destroyRoom s rid "Creator left the room" := by
      unfold handleLeaveRoom
      rw [hget]
      simp [hcr]
    rw [hL, destroyRoom_eq_some _ _ _ _ hget]
    refine ⟨?_, rfl, ?_⟩
    · simp [mapGet_mapDelete]
    · intro sid2 u2 c now2 hu2 hcode hempty
      have h2 : mapGet (mapDelete s.roomCodes r.code) (jsUpper c) =
          none := by
        rw [hcode]
        simp [mapGet_mapDelete]
      have h3 : mapGet (mapDelete s.rooms rid) "" = none := by
        rw [mapGet_mapDelete]
        by_cases hq : rid = "" <;> simp [hq, hempty]
      rw [joinRoom_code_unmapped _ sid2 c now2 u2 hu2 h2 h3]

/-- Witness for claim C1: a relayed message leaves the creator of `ra`
unchanged; the disconnect of creator `a` at `stateB` destroys `ra`,
notifies members `a` and `b`, and a re-join with the old code
(lower-cased) fails; the explicit leave of creator `a` at `stateA`
does the same. -/
theorem claim1_creator_invariant_and_teardown_witness :
    (⟨"ra", "AAAAAA", "a", 1, 9⟩ : Room).creatorId =
      (⟨"ra", "AAAAAA", "a", 1, 0⟩ : Room).creatorId ∧
    mapGet (handleDisconnect "a" 7 stateB).1.rooms "ra" = none ∧
    (["a", "b"], SEvent.roomDestroyed "ra" "Creator disconnected")
      ∈ (handleDisconnect "a" 7 stateB).2 ∧
    (handleJoinRoom "b" "aaaaaa" 8 (handleDisconnect "a" 7 stateB).1).2 =
      [(["b"], SEvent.ackError "Room not found")] ∧
    mapGet (handleLeaveRoom "a" "ra" 7 stateA).1.rooms "ra" = none ∧
    (handleLeaveRoom "a" "ra" 7 stateA).2 =
      [(["a"], SEvent.roomDestroyed "ra" "Creator left the room")] ∧
    (handleJoinRoom "b" "aaaaaa" 8 (handleLeaveRoom "a" "ra" 7 stateA).1).2 =
      [(["b"], SEvent.ackError "Room not found")] := by
  have h := claim1_creator_invariant_and_teardown
  have hd := h.2.1 stateB "a" ⟨"a", "alice"⟩ 7 "ra"
    ⟨"ra", "AAAAAA", "a", 1, 0⟩ rfl (by decide) rfl rfl
  have hl := h.2.2 stateA "a" 7 "ra" ⟨"ra", "AAAAAA", "a", 1, 0⟩ rfl rfl
  exact ⟨h.1 (Event.sendMessage "a" ⟨"ra", "a", "cipher", "iv1"⟩ 9) stateA
      "ra" ⟨"ra", "AAAAAA", "a", 1, 0⟩ ⟨"ra", "AAAAAA", "a", 1, 9⟩
      trivial rfl rfl,
    hd.1, hd.2.1,
    hd.2.2 "b" ⟨"b", "bob"⟩ "aaaaaa" 8 rfl (by decide) rfl,
    hl.1, hl.2.1,
    hl.2.2 "b" ⟨"b", "bob"⟩ "aaaaaa" 8 rfl (by decide) rfl⟩

end FadeChat
